import Mathlib

/-!
Verification development for the kube-balance pod rebalancer.

Shallow embedding of the eviction decision engine:
  - controllers/rebalancer_utils.go   (getPodQoSClass, qosClassToEvictionRank, checkPDB)
  - controllers/pod_rebalancer_controller.go  (Reconcile)
  - internal/profiles (WorkloadProfileWatcher event handlers: upsert / delete)

Modelling conventions, stated once here:
  - Go machine integers (int, int64 durations in nanoseconds) are modelled as Int;
    none of the embedded code can overflow 64 bits on the values involved, and all
    operations used are comparisons and additions that Go performs exactly.
  - Go maps are modelled as association lists (List (String × V)) observed through
    List.lookup; map assignment and delete are modelled by replace-or-append and
    key-filtering.  Go map iteration order is unspecified; where the source iterates
    a map (the degraded-node map in Reconcile) the embedding fixes the insertion
    order, i.e. the order of the underlying node list, and theorems that speak about
    the order of node processing are relative to this processing order.
  - Kubernetes API reads and writes are the data of an environment record (Env):
    the node list, pod list and PDB list are the snapshots the List calls return;
    owner resolution (getPodOwner, a sequence of Get calls) is an oracle function
    of the pod; the eviction subresource call is an oracle classifying the result
    the way errors.IsTooManyRequests does; the cooldown Patch has a success flag.
    API-transport failures of the List calls themselves are outside the embedding.
  - time.Now() is modelled by a single instant Env.now (nanoseconds, Int) for the
    whole invocation; time.Parse(time.RFC3339, s) is an oracle Env.parse with
    parse failure as none.
  - resource.Quantity values are modelled as Int (Cmp is comparison, IsZero is
    equality with 0); a nil ResourceList is none, and Cpu()/Memory() of nil is 0,
    exactly as the Go accessors behave.
-/

namespace KubeBalance

/-- Annotation key marking a node as degraded (pod_rebalancer_controller.go line 21). -/
def NodeDegradedAnnotation : String := "kube-balance.io/degraded-io"

/-- Label key identifying the workload type of a pod (line 24). -/
def WorkloadTypeLabel : String := "workload.k8s.io/type"

/-- Annotation key holding the eviction cooldown deadline on a pod owner (line 27). -/
def EvictionCooldownAnnotation : String := "kube-balance.io/eviction-cooldown-until"

/-- One second as a Go time.Duration (nanoseconds). -/
def second : Int := 1000000000

/-- Spec of a WorkloadProfile custom resource (api/v1alpha1/workloadprofile_types.go).
The cpu and memory request hints are opaque strings, not interpreted by the core. -/
structure WorkloadProfileSpec where
  cpuRequests : String
  memoryRequests : String
  evictionPriority : Int
deriving DecidableEq, Repr

/-- A WorkloadProfile custom resource: its (unique) name and its spec. -/
structure WorkloadProfile where
  name : String
  spec : WorkloadProfileSpec
deriving DecidableEq, Repr

/-- A pod container resource list (core.ResourceList restricted to cpu and memory).
Absent entries are represented by the zero value that the Go accessors
Requests.Cpu() / Requests.Memory() return for a missing key. -/
structure ResourceList where
  cpu : Int
  mem : Int
deriving DecidableEq, Repr

/-- Accessor for an optional resource list: Cpu() of a nil ResourceList is the zero
quantity in Go, so none maps to 0. -/
def cpuOf : Option ResourceList → Int
  | none => 0
  | some rl => rl.cpu

/-- Accessor for an optional resource list, memory component. -/
def memOf : Option ResourceList → Int
  | none => 0
  | some rl => rl.mem

/-- A container: requests and limits, each a possibly nil (none) resource list. -/
structure Container where
  requests : Option ResourceList
  limits : Option ResourceList
deriving DecidableEq, Repr

/-- Pod lifecycle phase; only Running and Pending are distinguished by the code,
every other phase behaves identically (constructor other). -/
inductive PodPhase where
  | running
  | pending
  | other
deriving DecidableEq, Repr

/-- A pod, with the fields Reconcile reads.  The containers field is an Option to
keep the Go distinction between a nil slice (none) and an empty slice (some []):
getPodQoSClass branches on nil explicitly. -/
structure Pod where
  name : String
  ns : String
  nodeName : String
  phase : PodPhase
  labels : List (String × String)
  containers : Option (List Container)
deriving DecidableEq, Repr

/-- QoS classes produced by getPodQoSClass.  The default branch of
qosClassToEvictionRank (an unrecognized class, rank 0) is unreachable because every
pod is classified by getPodQoSClass, which only returns these three values. -/
inductive QoSClass where
  | guaranteed
  | burstable
  | bestEffort
deriving DecidableEq, Repr

/-- Condition of the first branch of the classification loop: the container declares
neither requests nor limits (both resource lists nil). -/
def containerNoResources (c : Container) : Bool :=
  c.requests.isNone && c.limits.isNone

/-- Condition of the second branch: the cpu or the memory request differs from the
corresponding limit (the Cmp calls in the source). -/
def containerDiffers (c : Container) : Bool :=
  !(cpuOf c.requests == cpuOf c.limits) || !(memOf c.requests == memOf c.limits)

/-- Condition of the third branch: the cpu or the memory request is zero (the IsZero
calls in the source). -/
def containerZeroRequest (c : Container) : Bool :=
  cpuOf c.requests == 0 || memOf c.requests == 0

/-- QoS classification of a pod (rebalancer_utils.go lines 19 to 56): a nil container
slice is BestEffort; otherwise one pass over the containers maintaining the flags
guaranteed (initially true) and burstable (initially false), breaking out of the
loop at the first container that declares neither requests nor limits. -/
def qosScan : List Container → Bool → Bool → Bool × Bool
  | [], g, bu => (g, bu)
  | c :: cs, g, bu =>
    if containerNoResources c then
      (false, false)
    else
      let g1 := if containerDiffers c then false else g
      let bu1 := if containerDiffers c then true else bu
      let g2 := if containerZeroRequest c then false else g1
      qosScan cs g2 bu1

/-- Determines the QoS class of a pod (rebalancer_utils.go, getPodQoSClass). -/
def getPodQoSClass (p : Pod) : QoSClass :=
  match p.containers with
  | none => QoSClass.bestEffort
  | some cs =>
    let r := qosScan cs true false
    if r.1 then QoSClass.guaranteed
    else if r.2 then QoSClass.burstable
    else QoSClass.bestEffort

/-- Rank for eviction priority (rebalancer_utils.go, qosClassToEvictionRank):
BestEffort 3, Burstable 2, Guaranteed 1. -/
def qosClassToEvictionRank : QoSClass → Int
  | QoSClass.bestEffort => 3
  | QoSClass.burstable => 2
  | QoSClass.guaranteed => 1

/-- Workload type of a pod: the Go map read pod.Labels[WorkloadTypeLabel] yields the
empty string when the key is absent. -/
def workloadTypeOf (p : Pod) : String :=
  (p.labels.lookup WorkloadTypeLabel).getD ""

/-- Profile snapshot as returned by WorkloadProfileWatcher.GetProfiles: a copied map
from profile name to WorkloadProfile, modelled as an association list. -/
abbrev ProfileMap := List (String × WorkloadProfile)

/-- Comparator passed to sort.Slice in Reconcile (pod_rebalancer_controller.go lines
111 to 134): first by QoS eviction rank descending; within equal QoS class, a pod
whose workload type has no profile in the snapshot sorts first (the source returns
true when okA is false), two unprofiled pods compare equal, and two profiled pods
compare by evictionPriority descending. -/
def podLess (profiles : ProfileMap) (a b : Pod) : Bool :=
  let qa := getPodQoSClass a
  let qb := getPodQoSClass b
  if qa ≠ qb then
    qosClassToEvictionRank qa > qosClassToEvictionRank qb
  else
    match profiles.lookup (workloadTypeOf a), profiles.lookup (workloadTypeOf b) with
    | none, none => false
    | none, some _ => true
    | some _, none => false
    | some pa, some pb => pa.spec.evictionPriority > pb.spec.evictionPriority

/-- Insertion of a pod into an already ranked list: the pod is placed before the
first element it compares strictly less than, hence after every element it ties
with.  This is the position the insertion sort inside sort.Slice computes. -/
def insertRanked (less : Pod → Pod → Bool) (x : Pod) : List Pod → List Pod
  | [] => [x]
  | y :: ys => if less x y then x :: y :: ys else y :: insertRanked less x ys

/-- Ranking step of Reconcile, the sort.Slice call on podsOnDegradedNode.  Go
delegates sort.Slice to an unstable pattern-defeating quicksort, which for twelve
or fewer elements is exactly this left-to-right insertion sort; for larger inputs
it returns some ordering of the same elements that is sorted under the comparator
but need not keep tied elements in input order.  The embedding uses the insertion
sort; every theorem below either does not depend on the order of tied elements or
says so explicitly. -/
def sortRanked (less : Pod → Pod → Bool) (l : List Pod) : List Pod :=
  l.foldl (fun acc x => insertRanked less x acc) []

/-! Profile Store mutation entry points (internal/profiles, WorkloadProfileWatcher.
Start).  The informer AddFunc and UpdateFunc both perform the map assignment
profiles[wp.Name] = *wp.DeepCopy(); DeleteFunc performs delete(profiles, wp.Name).
The store map is modelled as a ProfileMap association list. -/

/-- Map assignment profiles[k] = v: replace the binding in place when the key is
present, otherwise append a new binding. -/
def profilesUpsert (m : ProfileMap) (k : String) (v : WorkloadProfile) : ProfileMap :=
  if m.any (fun kv => kv.1 == k) then
    m.map (fun kv => if kv.1 == k then (k, v) else kv)
  else
    m ++ [(k, v)]

/-- Map deletion delete(profiles, k): drop the binding for k; deleting an absent key
is a total no-op, exactly like the Go builtin. -/
def profilesRemove (m : ProfileMap) (k : String) : ProfileMap :=
  m.filter (fun kv => !(kv.1 == k))

/-! Embedding of the Reconcile cycle (pod_rebalancer_controller.go lines 49 to 229)
and its helpers getPodOwner and checkPDB (rebalancer_utils.go). -/

/-- A node: its name and annotations.  Reconcile only tests the presence of the
degraded annotation key. -/
structure Node where
  name : String
  annotations : List (String × String)
deriving DecidableEq, Repr

/-- A pod owner as returned by getPodOwner (a Deployment, StatefulSet or
ReplicaSet); Reconcile reads its annotations and patches them. -/
structure Owner where
  name : String
  ns : String
  annotations : List (String × String)
deriving DecidableEq, Repr

/-- Result of getPodOwner for a pod: a fetch error (the function returns nil with a
non-nil error), no controller owner (nil, nil), or the resolved owner object. -/
inductive OwnerResult where
  | fetchError
  | noOwner
  | found (o : Owner)
deriving Repr

/-- Selector of a PodDisruptionBudget as seen through meta.LabelSelectorAsSelector:
invalid selectors make that call return an error (checkPDB skips the budget); a nil
selector converts to a selector matching nothing; otherwise the selector requires
every matchLabels pair to be present in the pod labels (matchExpressions are not
exercised by this code base and are not modelled). -/
inductive PDBSelector where
  | invalid
  | nothing
  | matchLabels (kvs : List (String × String))
deriving DecidableEq, Repr

/-- A PodDisruptionBudget: namespace, selector and status.DisruptionsAllowed. -/
structure PDB where
  name : String
  ns : String
  selector : PDBSelector
  disruptionsAllowed : Int
deriving DecidableEq, Repr

/-- Classification of the Evictor.EvictPod result in Reconcile: success, a response
for which errors.IsTooManyRequests holds, or any other failure. -/
inductive EvictResult where
  | success
  | tooManyRequests
  | otherError
deriving DecidableEq, Repr

/-- Environment of one reconciliation invocation: the cluster snapshots the List
calls return, the oracles for owner resolution, timestamp parsing, the current
instant, the eviction call, the cooldown patch success, and the controller
configuration. -/
structure Env where
  profiles : ProfileMap
  nodes : List Node
  pods : List Pod
  pdbs : List PDB
  ownerOf : Pod → OwnerResult
  parse : String → Option Int
  now : Int
  evict : Pod → EvictResult
  patchOk : Bool
  recheckInterval : Int
  maxEvictions : Int

/-- Observable steps of one invocation, in execution order: API list calls, the
events the Recorder emits, eviction requests and the cooldown patch. -/
inductive Action where
  | listNodes
  | listPods
  | listPDBs (ns : String)
  | evict (p : Pod)
  | patchOwner (ownerName : String) (deadline : Int)
  | event (reason : String) (objName : String)
deriving DecidableEq, Repr

/-- Terminal instruction of an invocation: requeue after the given duration. -/
inductive RResult where
  | requeueAfter (d : Int)
deriving DecidableEq, Repr

/-- Checks whether a node carries the degraded annotation (line 72). -/
def nodeDegraded (n : Node) : Bool :=
  (n.annotations.lookup NodeDegradedAnnotation).isSome

/-- Cooldown admission check (lines 143 to 156): the candidate is skipped exactly
when the owner resolves, carries the cooldown annotation, the annotation parses as
an RFC 3339 timestamp and that timestamp is still in the future.  A fetch error, a
missing owner, a missing annotation or an unparsable value all fail open. -/
def cooldownSkip (env : Env) (p : Pod) : Bool :=
  match env.ownerOf p with
  | OwnerResult.found o =>
    match o.annotations.lookup EvictionCooldownAnnotation with
    | some s =>
      match env.parse s with
      | some t => decide (env.now < t)
      | none => false
    | none => false
  | _ => false

/-- Selector match on pod labels: all matchLabels pairs present with equal values. -/
def selMatches (kvs : List (String × String)) (podLabels : List (String × String)) : Bool :=
  kvs.all (fun kv => podLabels.lookup kv.1 == some kv.2)

/-- Disruption-budget admission check (rebalancer_utils.go, checkPDB): list the
budgets of the pod namespace; a budget with an invalid selector is skipped; the pod
is blocked when some remaining budget matches its labels and allows 0 disruptions.
The Go function returns an error in the blocked case and nil otherwise; the model
returns true for blocked. -/
def checkPDB (pdbs : List PDB) (p : Pod) : Bool :=
  (pdbs.filter (fun pdb => pdb.ns == p.ns)).any (fun pdb =>
    match pdb.selector with
    | PDBSelector.invalid => false
    | PDBSelector.nothing => false
    | PDBSelector.matchLabels kvs =>
      selMatches kvs p.labels && decide (pdb.disruptionsAllowed = 0))

/-- Candidate pods of a degraded node (lines 97 to 103): assigned to the node and in
phase Running or Pending, in pod-list order. -/
def candidatesOn (env : Env) (nodeName : String) : List Pod :=
  env.pods.filter (fun p =>
    p.nodeName == nodeName && (p.phase == PodPhase.running || p.phase == PodPhase.pending))

/-- Cooldown deadline written on a successful eviction (line 199):
time.Now().Add(r.RecheckInterval * 2). -/
def newDeadline (env : Env) : Int :=
  env.now + env.recheckInterval * 2

/-- Inner candidate loop of Reconcile (lines 136 to 223) over the ranked candidate
list of one degraded node, carrying evictedCount.  The result is none when the loop
falls through (break on the eviction cap, or list exhausted) so that the node loop
continues, and some r when Reconcile returns r from inside the loop. -/
def processPods (env : Env) : List Pod → Int → List Action × Option RResult
  | [], _ => ([], none)
  | p :: rest, evictedCount =>
    if evictedCount ≥ env.maxEvictions then
      ([], none)
    else if cooldownSkip env p then
      let r := processPods env rest evictedCount
      (Action.event "EvictionSkipped" p.name :: r.1, r.2)
    else if checkPDB env.pdbs p then
      let r := processPods env rest evictedCount
      (Action.listPDBs p.ns :: Action.event "PDBViolation" p.name :: r.1, r.2)
    else
      match (env.profiles.lookup (workloadTypeOf p)).isSome with
      | true =>
        match env.evict p with
        | EvictResult.tooManyRequests =>
          ([Action.listPDBs p.ns, Action.evict p, Action.event "EvictionRateLimited" p.name],
            some (RResult.requeueAfter (10 * second)))
        | EvictResult.otherError =>
          let r := processPods env rest evictedCount
          (Action.listPDBs p.ns :: Action.evict p :: Action.event "EvictionFailed" p.name :: r.1,
            r.2)
        | EvictResult.success =>
          let patchTrace :=
            match env.ownerOf p with
            | OwnerResult.found o =>
              Action.patchOwner o.name (newDeadline env) ::
                (if env.patchOk then [Action.event "CooldownSet" o.name]
                 else [Action.event "CooldownAnnotationFailed" o.name])
            | _ => []
          (Action.listPDBs p.ns :: Action.evict p :: Action.event "PodEvicted" p.name ::
              patchTrace,
            some (RResult.requeueAfter (5 * second)))
      | false =>
        let r := processPods env rest evictedCount
        (Action.listPDBs p.ns :: r.1, r.2)

/-- Ranked candidate list of a node: the sort.Slice call applied to the candidates. -/
def rankedOn (env : Env) (nodeName : String) : List Pod :=
  sortRanked (podLess env.profiles) (candidatesOn env nodeName)

/-- Outer loop of Reconcile over the degraded nodes (lines 94 to 224), in processing
order: a node with no candidates is skipped; otherwise the ranked candidates are
walked, and a result returned from inside the candidate loop ends the invocation. -/
def processNodes (env : Env) : List Node → List Action × RResult
  | [] => ([], RResult.requeueAfter env.recheckInterval)
  | n :: rest =>
    if (candidatesOn env n.name).isEmpty then
      processNodes env rest
    else
      let r0 := processPods env (rankedOn env n.name) 0
      match r0.2 with
      | some res => (r0.1, res)
      | none =>
        let r := processNodes env rest
        (r0.1 ++ r.1, r.2)

/-- One invocation of Reconcile: empty profile snapshot returns immediately with the
recheck interval; otherwise the nodes are listed, degraded nodes identified (one
NodeDegraded event each, in node-list order); with no degraded node the invocation
requeues after the recheck interval; otherwise the pods are listed and the degraded
nodes processed. -/
def reconcile (env : Env) : List Action × RResult :=
  if env.profiles.length = 0 then
    ([], RResult.requeueAfter env.recheckInterval)
  else
    let degraded := env.nodes.filter nodeDegraded
    let scanTrace :=
      Action.listNodes :: degraded.map (fun n => Action.event "NodeDegraded" n.name)
    if degraded.length = 0 then
      (scanTrace, RResult.requeueAfter env.recheckInterval)
    else
      let r := processNodes env degraded
      (scanTrace ++ Action.listPods :: r.1, r.2)

/-- Eviction requests contained in a trace, in order. -/
def evictsOf (tr : List Action) : List Pod :=
  tr.filterMap (fun a => match a with | Action.evict p => some p | _ => none)

/-- Cooldown patches contained in a trace, in order, as owner-name and deadline. -/
def patchesOf (tr : List Action) : List (String × Int) :=
  tr.filterMap (fun a => match a with | Action.patchOwner o d => some (o, d) | _ => none)

/-! Claim C3: QoS classification. -/

/-- Sub-units (containers) of an instance, as the claim speaks of them: a pod with a
nil container slice declares no sub-units. -/
def subunits (p : Pod) : List Container :=
  p.containers.getD []

/-- Claim C3 as stated, for one instance: BestEffort if any sub-unit declares
neither requests nor limits; otherwise Burstable if any sub-unit has a cpu or
memory request differing from its limit; otherwise Guaranteed exactly when no
sub-unit has a zero cpu or zero memory request. -/
def qosClaimC3 (p : Pod) : Prop :=
  if (subunits p).any containerNoResources then
    getPodQoSClass p = QoSClass.bestEffort
  else if (subunits p).any containerDiffers then
    getPodQoSClass p = QoSClass.burstable
  else
    (getPodQoSClass p = QoSClass.guaranteed ↔
      (subunits p).all (fun c => !containerZeroRequest c) = true)

/-- Claim C3 amended by the nil-slice counterexample: a pod whose container slice is
nil (line 20 of rebalancer_utils.go) is also BestEffort; the rest is unchanged. -/
def qosClaimC3Amended (p : Pod) : Prop :=
  if p.containers.isNone || (subunits p).any containerNoResources then
    getPodQoSClass p = QoSClass.bestEffort
  else if (subunits p).any containerDiffers then
    getPodQoSClass p = QoSClass.burstable
  else
    (getPodQoSClass p = QoSClass.guaranteed ↔
      (subunits p).all (fun c => !containerZeroRequest c) = true)

/-- A pod with a nil container slice, the input on which claim C3 fails. -/
def podNilContainers : Pod :=
  { name := "no-containers", ns := "default", nodeName := "n1",
    phase := PodPhase.running, labels := [], containers := none }

lemma qosScan_break (cs : List Container) (h : cs.any containerNoResources = true)
    (g bu : Bool) : qosScan cs g bu = (false, false) := by
  induction cs generalizing g bu with
  | nil => simp at h
  | cons c cs ih =>
    rw [List.any_cons] at h
    by_cases hc : containerNoResources c = true
    · simp [qosScan, hc]
    · simp only [Bool.not_eq_true] at hc
      simp only [hc, Bool.false_or] at h
      simp [qosScan, hc, ih h]

lemma qosScan_no_break (cs : List Container) (h : cs.any containerNoResources = false)
    (g bu : Bool) :
    qosScan cs g bu =
      (g && cs.all (fun c => !containerDiffers c && !containerZeroRequest c),
       bu || cs.any containerDiffers) := by
  induction cs generalizing g bu with
  | nil => simp [qosScan]
  | cons c cs ih =>
    rw [List.any_cons] at h
    have hc : containerNoResources c = false := by
      cases hcc : containerNoResources c
      · rfl
      · rw [hcc] at h; simp at h
    rw [hc] at h
    simp only [Bool.false_or] at h
    rw [qosScan, hc]
    simp only [Bool.false_eq_true, if_false]
    rw [ih h]
    cases hd : containerDiffers c <;> cases hz : containerZeroRequest c <;>
      simp [List.all_cons, List.any_cons, hd, hz]

lemma all_drop_differs (cs : List Container) (h : cs.any containerDiffers = false) :
    cs.all (fun c => !containerDiffers c && !containerZeroRequest c)
      = cs.all (fun c => !containerZeroRequest c) := by
  induction cs with
  | nil => rfl
  | cons c cs ih =>
    rw [List.any_cons] at h
    have hc : containerDiffers c = false := by
      cases hcc : containerDiffers c
      · rfl
      · rw [hcc] at h; simp at h
    rw [hc] at h
    simp only [Bool.false_or] at h
    simp [List.all_cons, hc, ih h]

/-- C3 (amended): for every instance, the QoS classification returns BestEffort if
the container slice is nil or some sub-unit declares neither requests nor limits;
otherwise Burstable if some sub-unit has a cpu or memory request differing from its
limit; otherwise Guaranteed exactly when no sub-unit has a zero cpu or zero memory
request. -/
theorem C3_qos_classification_amended (p : Pod) : qosClaimC3Amended p := by
  unfold qosClaimC3Amended
  cases hc : p.containers with
  | none =>
    simp only [hc, Option.isNone_none, Bool.true_or, if_true]
    simp [getPodQoSClass, hc]
  | some cs =>
    have hsub : subunits p = cs := by simp [subunits, hc]
    simp only [hc, Option.isNone_some, Bool.false_or, hsub]
    by_cases hbreak : cs.any containerNoResources = true
    · simp only [hbreak, if_true]
      simp [getPodQoSClass, hc, qosScan_break cs hbreak]
    · simp only [Bool.not_eq_true] at hbreak
      simp only [hbreak, Bool.false_eq_true, if_false]
      have hscan := qosScan_no_break cs hbreak true false
      simp only [Bool.true_and, Bool.false_or] at hscan
      by_cases hdif : cs.any containerDiffers = true
      · simp only [hdif, if_true]
        have hall : cs.all (fun c => !containerDiffers c && !containerZeroRequest c) = false := by
          rcases List.any_eq_true.mp hdif with ⟨c, hcmem, hcd⟩
          apply List.all_eq_false.mpr
          exact ⟨c, hcmem, by simp [hcd]⟩
        simp [getPodQoSClass, hc, hscan, hall, hdif]
      · simp only [Bool.not_eq_true] at hdif
        simp only [hdif, Bool.false_eq_true, if_false]
        rw [all_drop_differs cs hdif] at hscan
        cases hz : cs.all (fun c => !containerZeroRequest c) <;>
          simp [getPodQoSClass, hc, hscan, hz, hdif]

/-- C3 counterexample: the claim as stated fails on a pod whose container slice is
nil: no sub-unit satisfies any of the three conditions, so the claim forces
Guaranteed, but getPodQoSClass returns BestEffort (rebalancer_utils.go line 20). -/
theorem C3_counterexample : ¬ qosClaimC3 podNilContainers := by
  unfold qosClaimC3
  simp [subunits, podNilContainers, getPodQoSClass]

/-- C3 witness: the amended claim evaluated on a concrete two-container pod. -/
theorem C3_witness : qosClaimC3Amended
    { name := "w3", ns := "default", nodeName := "n1", phase := PodPhase.running,
      labels := [],
      containers := some
        [{ requests := some { cpu := 100, mem := 200 }, limits := some { cpu := 100, mem := 200 } },
         { requests := some { cpu := 50, mem := 60 }, limits := some { cpu := 70, mem := 60 } }] } :=
  C3_qos_classification_amended _

/-! Claims C2 and C7: the ranking comparator and the sort. -/

/-- A concrete workload profile used in several ranking statements. -/
def profNoisy : WorkloadProfile :=
  { name := "noisy", spec := { cpuRequests := "500m", memoryRequests := "512Mi",
                               evictionPriority := 5 } }

/-- Profile snapshot holding only the noisy profile. -/
def psNoisy : ProfileMap := [("noisy", profNoisy)]

/-- A BestEffort pod whose workload type has no profile in psNoisy. -/
def podUnprofiled : Pod :=
  { name := "u", ns := "default", nodeName := "n1", phase := PodPhase.running,
    labels := [], containers := some [{ requests := none, limits := none }] }

/-- A BestEffort pod whose workload type is noisy, profiled in psNoisy. -/
def podProfiled : Pod :=
  { name := "p", ns := "default", nodeName := "n1", phase := PodPhase.running,
    labels := [(WorkloadTypeLabel, "noisy")],
    containers := some [{ requests := none, limits := none }] }

/-- C2 counterexample: with equal QoS class, an instance without a matching profile
is ranked above (before, hence evicted before) a profiled instance: sorting the
list with the profiled pod first moves the unprofiled pod to the front, against the
claim that unprofiled instances order below every profiled instance. -/
theorem C2_counterexample :
    getPodQoSClass podUnprofiled = getPodQoSClass podProfiled ∧
    psNoisy.lookup (workloadTypeOf podUnprofiled) = none ∧
    (psNoisy.lookup (workloadTypeOf podProfiled)).isSome = true ∧
    podLess psNoisy podUnprofiled podProfiled = true ∧
    sortRanked (podLess psNoisy) [podProfiled, podUnprofiled]
      = [podUnprofiled, podProfiled] := by
  refine ⟨rfl, rfl, rfl, rfl, ?_⟩
  decide

/-- C2 (amended): within equal QoS rank the comparator orders an instance with no
matching profile above (before, evicted before) every instance with a matching
profile, regardless of the profiled instance eviction priority; two unprofiled
instances compare equal; among profiled instances the one with the higher
evictionPriority sorts first. -/
theorem C2_ranking_tiebreak_amended (profiles : ProfileMap) (a b : Pod)
    (hq : getPodQoSClass a = getPodQoSClass b) :
    (profiles.lookup (workloadTypeOf a) = none →
      (profiles.lookup (workloadTypeOf b)).isSome = true →
      podLess profiles a b = true ∧ podLess profiles b a = false) ∧
    (profiles.lookup (workloadTypeOf a) = none →
      profiles.lookup (workloadTypeOf b) = none →
      podLess profiles a b = false ∧ podLess profiles b a = false) ∧
    (∀ pa pb, profiles.lookup (workloadTypeOf a) = some pa →
      profiles.lookup (workloadTypeOf b) = some pb →
      podLess profiles a b = decide (pa.spec.evictionPriority > pb.spec.evictionPriority)) := by
  refine ⟨?_, ?_, ?_⟩
  · intro hla hlb
    rcases Option.isSome_iff_exists.mp hlb with ⟨pb, hpb⟩
    constructor
    · simp [podLess, hq, hla, hpb]
    · simp [podLess, hq, hla, hpb]
  · intro hla hlb
    constructor
    · simp [podLess, hq, hla, hlb]
    · simp [podLess, hq, hla, hlb]
  · intro pa pb hpa hpb
    simp [podLess, hq, hpa, hpb]

/-- C2 witness: the amended ordering evaluated on concrete tied-QoS pods. -/
theorem C2_witness :
    getPodQoSClass podUnprofiled = getPodQoSClass podProfiled ∧
    ((psNoisy.lookup (workloadTypeOf podUnprofiled) = none →
      (psNoisy.lookup (workloadTypeOf podProfiled)).isSome = true →
      podLess psNoisy podUnprofiled podProfiled = true ∧
        podLess psNoisy podProfiled podUnprofiled = false) ∧
    (psNoisy.lookup (workloadTypeOf podUnprofiled) = none →
      psNoisy.lookup (workloadTypeOf podProfiled) = none →
      podLess psNoisy podUnprofiled podProfiled = false ∧
        podLess psNoisy podProfiled podUnprofiled = false) ∧
    (∀ pa pb, psNoisy.lookup (workloadTypeOf podUnprofiled) = some pa →
      psNoisy.lookup (workloadTypeOf podProfiled) = some pb →
      podLess psNoisy podUnprofiled podProfiled
        = decide (pa.spec.evictionPriority > pb.spec.evictionPriority))) :=
  ⟨rfl, C2_ranking_tiebreak_amended psNoisy podUnprofiled podProfiled rfl⟩

/-- Second unprofiled BestEffort pod, tied with podUnprofiled under the comparator. -/
def podUnprofiledTwo : Pod :=
  { name := "u2", ns := "default", nodeName := "n1", phase := PodPhase.running,
    labels := [], containers := some [{ requests := none, limits := none }] }

/-- C7: the comparator ties distinct candidates (neither compares less than the
other), which is the situation in which the unstable sort.Slice inside Reconcile is
free to reorder them; the embedded insertion sort (exact for at most twelve
candidates) keeps them in input order, but the pattern-defeating quicksort that
sort.Slice runs on longer inputs does not guarantee this. -/
theorem C7_tied_distinct_candidates :
    podLess psNoisy podUnprofiled podUnprofiledTwo = false ∧
    podLess psNoisy podUnprofiledTwo podUnprofiled = false ∧
    podUnprofiled ≠ podUnprofiledTwo ∧
    sortRanked (podLess psNoisy) [podUnprofiled, podUnprofiledTwo]
      = [podUnprofiled, podUnprofiledTwo] := by
  refine ⟨rfl, rfl, ?_, ?_⟩
  · decide
  · decide

/-! Claim C9: Profile Store mutation idempotence. -/

lemma map_replace_absent (m : ProfileMap) (k : String) (v : WorkloadProfile)
    (h : m.any (fun kv => kv.1 == k) = false) :
    m.map (fun kv => if kv.1 == k then (k, v) else kv) = m := by
  induction m with
  | nil => rfl
  | cons hd tl ih =>
    rw [List.any_cons] at h
    have hhd : (hd.1 == k) = false := by
      cases hc : (hd.1 == k)
      · rfl
      · rw [hc] at h; simp at h
    rw [hhd] at h
    simp only [Bool.false_or] at h
    rw [List.map_cons, if_neg (by simp [hhd]), ih h]

lemma lookup_none_filter (m : ProfileMap) (k : String) (h : m.lookup k = none) :
    profilesRemove m k = m := by
  induction m with
  | nil => rfl
  | cons hd tl ih =>
    have hlk : (k == hd.1) = false := by
      cases hc : (k == hd.1)
      · rfl
      · rw [List.lookup, hc] at h; simp at h
    have hkl : (hd.1 == k) = false := by
      rcases Bool.eq_false_iff.mp hlk with _
      apply Bool.eq_false_iff.mpr
      intro hcon
      exact absurd (by rw [beq_iff_eq] at hcon ⊢; exact hcon.symm) (Bool.eq_false_iff.mp hlk)
    rw [List.lookup, hlk] at h
    unfold profilesRemove
    simp only [List.filter_cons, hkl, Bool.not_false, if_true]
    exact congrArg (hd :: ·) (ih h)

/-- C9: Profile Store mutations are idempotent: upserting the same profile twice
equals upserting it once, and removing an absent key is a total no-op (the model is
a total function, so no exception can be raised). -/
theorem C9_profile_store_idempotent (m : ProfileMap) (k : String) (v : WorkloadProfile) :
    profilesUpsert (profilesUpsert m k v) k v = profilesUpsert m k v ∧
    (m.lookup k = none → profilesRemove m k = m) := by
  constructor
  · by_cases hany : m.any (fun kv => kv.1 == k) = true
    · have h1 : profilesUpsert m k v = m.map (fun kv => if kv.1 == k then (k, v) else kv) := by
        simp [profilesUpsert, hany]
      rcases List.any_eq_true.mp hany with ⟨kv, hmem, hkv⟩
      have hany2 : (profilesUpsert m k v).any (fun kv => kv.1 == k) = true := by
        apply List.any_eq_true.mpr
        refine ⟨(k, v), ?_, by simp⟩
        rw [h1]
        exact List.mem_map.mpr ⟨kv, hmem, by simp [hkv]⟩
      rw [profilesUpsert, if_pos hany2, h1, List.map_map]
      apply congrFun
      apply congrArg
      funext kv2
      by_cases hk2 : (kv2.1 == k) = true
      · simp [Function.comp, hk2]
      · simp only [Bool.not_eq_true] at hk2
        simp [Function.comp, hk2]
    · simp only [Bool.not_eq_true] at hany
      have h1 : profilesUpsert m k v = m ++ [(k, v)] := by
        simp [profilesUpsert, hany]
      have hany2 : (m ++ [(k, v)]).any (fun kv => kv.1 == k) = true := by
        rw [List.any_append]
        simp
      rw [h1, profilesUpsert, if_pos hany2, List.map_append, map_replace_absent m k v hany]
      simp
  · exact lookup_none_filter m k

/-- C9 witness: idempotence and absent-key removal evaluated on a concrete store. -/
theorem C9_witness :
    profilesUpsert (profilesUpsert [("noisy", profNoisy)] "noisy" profNoisy) "noisy" profNoisy
        = profilesUpsert [("noisy", profNoisy)] "noisy" profNoisy ∧
    ([("noisy", profNoisy)] : ProfileMap).lookup "sensitive" = none ∧
    profilesRemove [("noisy", profNoisy)] "sensitive" = [("noisy", profNoisy)] :=
  ⟨(C9_profile_store_idempotent [("noisy", profNoisy)] "noisy" profNoisy).1, rfl,
    (C9_profile_store_idempotent [("noisy", profNoisy)] "sensitive" profNoisy).2 rfl⟩

/-! Trace bookkeeping lemmas. -/

@[simp] lemma evictsOf_nil : evictsOf [] = [] := rfl

@[simp] lemma evictsOf_listNodes (tr : List Action) :
    evictsOf (Action.listNodes :: tr) = evictsOf tr := rfl

@[simp] lemma evictsOf_listPods (tr : List Action) :
    evictsOf (Action.listPods :: tr) = evictsOf tr := rfl

@[simp] lemma evictsOf_listPDBs (ns : String) (tr : List Action) :
    evictsOf (Action.listPDBs ns :: tr) = evictsOf tr := rfl

@[simp] lemma evictsOf_event (r s : String) (tr : List Action) :
    evictsOf (Action.event r s :: tr) = evictsOf tr := rfl

@[simp] lemma evictsOf_patchOwner (o : String) (d : Int) (tr : List Action) :
    evictsOf (Action.patchOwner o d :: tr) = evictsOf tr := rfl

@[simp] lemma evictsOf_evict (p : Pod) (tr : List Action) :
    evictsOf (Action.evict p :: tr) = p :: evictsOf tr := rfl

@[simp] lemma evictsOf_append (t1 t2 : List Action) :
    evictsOf (t1 ++ t2) = evictsOf t1 ++ evictsOf t2 :=
  List.filterMap_append t1 t2 _

@[simp] lemma patchesOf_nil : patchesOf [] = [] := rfl

@[simp] lemma patchesOf_listNodes (tr : List Action) :
    patchesOf (Action.listNodes :: tr) = patchesOf tr := rfl

@[simp] lemma patchesOf_listPods (tr : List Action) :
    patchesOf (Action.listPods :: tr) = patchesOf tr := rfl

@[simp] lemma patchesOf_listPDBs (ns : String) (tr : List Action) :
    patchesOf (Action.listPDBs ns :: tr) = patchesOf tr := rfl

@[simp] lemma patchesOf_event (r s : String) (tr : List Action) :
    patchesOf (Action.event r s :: tr) = patchesOf tr := rfl

@[simp] lemma patchesOf_patchOwner (o : String) (d : Int) (tr : List Action) :
    patchesOf (Action.patchOwner o d :: tr) = (o, d) :: patchesOf tr := rfl

@[simp] lemma patchesOf_evict (p : Pod) (tr : List Action) :
    patchesOf (Action.evict p :: tr) = patchesOf tr := rfl

@[simp] lemma patchesOf_append (t1 t2 : List Action) :
    patchesOf (t1 ++ t2) = patchesOf t1 ++ patchesOf t2 :=
  List.filterMap_append t1 t2 _

@[simp] lemma evictsOf_degraded_events (L : List Node) :
    evictsOf (L.map fun n => Action.event "NodeDegraded" n.name) = [] := by
  induction L with
  | nil => rfl
  | cons n L ih => simp [ih]

@[simp] lemma patchesOf_degraded_events (L : List Node) :
    patchesOf (L.map fun n => Action.event "NodeDegraded" n.name) = [] := by
  induction L with
  | nil => rfl
  | cons n L ih => simp [ih]

/-! Admission characterization used by claims C1, C4, C5 and C6. -/

/-- Admission of a ranked candidate as Reconcile applies it: the cooldown check,
then the disruption-budget check, then existence of a matching workload profile. -/
def admittedBy (env : Env) (p : Pod) : Bool :=
  !cooldownSkip env p && !checkPDB env.pdbs p &&
    (env.profiles.lookup (workloadTypeOf p)).isSome

/-- Modelled from the claim: the first admitted candidate of the first degraded
node, in processing order, that has one. -/
def firstAdmitted (env : Env) : List Node → Option Pod
  | [] => none
  | n :: rest =>
    match (rankedOn env n.name).find? (admittedBy env) with
    | some p => some p
    | none => firstAdmitted env rest

lemma processPods_evict_mem (env : Env) (l : List Pod) (c : Int) (q : Pod)
    (h : q ∈ evictsOf (processPods env l c).1) :
    cooldownSkip env q = false ∧ checkPDB env.pdbs q = false ∧
      (env.profiles.lookup (workloadTypeOf q)).isSome = true := by
  induction l generalizing c with
  | nil => simp [processPods] at h
  | cons p rest ih =>
    rw [processPods] at h
    by_cases h1 : c ≥ env.maxEvictions
    · rw [if_pos h1] at h
      simp at h
    · rw [if_neg h1] at h
      by_cases h2 : cooldownSkip env p = true
      · rw [if_pos h2] at h
        simp only [evictsOf_event] at h
        exact ih c h
      · simp only [Bool.not_eq_true] at h2
        rw [if_neg (by simp [h2])] at h
        by_cases h3 : checkPDB env.pdbs p = true
        · rw [if_pos h3] at h
          simp only [evictsOf_listPDBs, evictsOf_event] at h
          exact ih c h
        · simp only [Bool.not_eq_true] at h3
          rw [if_neg (by simp [h3])] at h
          cases h4 : (env.profiles.lookup (workloadTypeOf p)).isSome with
          | false =>
            simp only [h4] at h
            simp only [evictsOf_listPDBs] at h
            exact ih c h
          | true =>
            simp only [h4] at h
            cases h5 : env.evict p with
            | tooManyRequests =>
              simp only [h5] at h
              simp only [evictsOf_listPDBs, evictsOf_evict, evictsOf_event, evictsOf_nil] at h
              rcases List.mem_singleton.mp h with rfl
              exact ⟨h2, h3, h4⟩
            | otherError =>
              simp only [h5] at h
              simp only [evictsOf_listPDBs, evictsOf_evict, evictsOf_event] at h
              rcases List.mem_cons.mp h with rfl | hmem
              · exact ⟨h2, h3, h4⟩
              · exact ih c hmem
            | success =>
              simp only [h5] at h
              have hq : q = p := by
                cases ho : env.ownerOf p <;> simp only [ho] at h <;>
                  cases hpk : env.patchOk <;> simp [hpk] at h <;> exact h
              subst hq
              exact ⟨h2, h3, h4⟩

lemma processPods_none_char (env : Env) (l : List Pod) (c : Int)
    (h : (processPods env l c).2 = none) :
    patchesOf (processPods env l c).1 = [] ∧
      ∀ q ∈ evictsOf (processPods env l c).1, env.evict q = EvictResult.otherError := by
  induction l generalizing c with
  | nil => simp [processPods]
  | cons p rest ih =>
    rw [processPods] at h ⊢
    by_cases h1 : c ≥ env.maxEvictions
    · rw [if_pos h1] at h ⊢
      simp
    · rw [if_neg h1] at h ⊢
      by_cases h2 : cooldownSkip env p = true
      · rw [if_pos h2] at h ⊢
        simpa using ih c h
      · simp only [Bool.not_eq_true] at h2
        rw [if_neg (by simp [h2])] at h ⊢
        by_cases h3 : checkPDB env.pdbs p = true
        · rw [if_pos h3] at h ⊢
          simpa using ih c h
        · simp only [Bool.not_eq_true] at h3
          rw [if_neg (by simp [h3])] at h ⊢
          cases h4 : (env.profiles.lookup (workloadTypeOf p)).isSome with
          | false =>
            simp only [h4] at h ⊢
            simpa using ih c h
          | true =>
            simp only [h4] at h ⊢
            cases h5 : env.evict p with
            | tooManyRequests => simp only [h5] at h; simp at h
            | success => simp only [h5] at h; simp at h
            | otherError =>
              simp only [h5] at h ⊢
              rcases ih c h with ⟨hp, he⟩
              refine ⟨by simpa using hp, ?_⟩
              intro q hq
              simp only [evictsOf_listPDBs, evictsOf_evict, evictsOf_event] at hq
              rcases List.mem_cons.mp hq with rfl | hmem
              · exact h5
              · exact he q hmem

lemma processPods_tmr (env : Env) (l : List Pod) (c : Int) (q : Pod)
    (hq : q ∈ evictsOf (processPods env l c).1)
    (ht : env.evict q = EvictResult.tooManyRequests) :
    (processPods env l c).2 = some (RResult.requeueAfter (10 * second)) ∧
      ∃ pre, evictsOf (processPods env l c).1 = pre ++ [q] := by
  induction l generalizing c with
  | nil => simp [processPods] at hq
  | cons p rest ih =>
    rw [processPods] at hq ⊢
    by_cases h1 : c ≥ env.maxEvictions
    · rw [if_pos h1] at hq
      simp at hq
    · rw [if_neg h1] at hq ⊢
      by_cases h2 : cooldownSkip env p = true
      · rw [if_pos h2] at hq ⊢
        simpa using ih c (by simpa using hq)
      · simp only [Bool.not_eq_true] at h2
        rw [if_neg (by simp [h2])] at hq ⊢
        by_cases h3 : checkPDB env.pdbs p = true
        · rw [if_pos h3] at hq ⊢
          simpa using ih c (by simpa using hq)
        · simp only [Bool.not_eq_true] at h3
          rw [if_neg (by simp [h3])] at hq ⊢
          cases h4 : (env.profiles.lookup (workloadTypeOf p)).isSome with
          | false =>
            simp only [h4] at hq ⊢
            simpa using ih c (by simpa using hq)
          | true =>
            simp only [h4] at hq ⊢
            cases h5 : env.evict p with
            | tooManyRequests =>
              simp only [h5] at hq ⊢
              simp only [evictsOf_listPDBs, evictsOf_evict, evictsOf_event, evictsOf_nil] at hq ⊢
              rcases List.mem_singleton.mp hq with rfl
              exact ⟨by simp, [], by simp⟩
            | otherError =>
              simp only [h5] at hq ⊢
              simp only [evictsOf_listPDBs, evictsOf_evict, evictsOf_event] at hq ⊢
              rcases List.mem_cons.mp hq with rfl | hmem
              · rw [h5] at ht; exact absurd ht (by simp)
              · rcases ih c hmem with ⟨hres, pre, hpre⟩
                exact ⟨hres, p :: pre, by simp [hpre]⟩
            | success =>
              simp only [h5] at hq
              have hqp : q = p := by
                cases ho : env.ownerOf p <;> simp only [ho] at hq <;>
                  cases hpk : env.patchOk <;> simp [hpk] at hq <;> exact hq
              subst hqp
              rw [h5] at ht
              exact absurd ht (by simp)

lemma processPods_success_patch (env : Env) (l : List Pod) (c : Int) (q : Pod) (o : Owner)
    (hq : q ∈ evictsOf (processPods env l c).1)
    (hs : env.evict q = EvictResult.success)
    (ho : env.ownerOf q = OwnerResult.found o) :
    (processPods env l c).2 = some (RResult.requeueAfter (5 * second)) ∧
      patchesOf (processPods env l c).1 = [(o.name, newDeadline env)] := by
  induction l generalizing c with
  | nil => simp [processPods] at hq
  | cons p rest ih =>
    rw [processPods] at hq ⊢
    by_cases h1 : c ≥ env.maxEvictions
    · rw [if_pos h1] at hq
      simp at hq
    · rw [if_neg h1] at hq ⊢
      by_cases h2 : cooldownSkip env p = true
      · rw [if_pos h2] at hq ⊢
        simpa using ih c (by simpa using hq)
      · simp only [Bool.not_eq_true] at h2
        rw [if_neg (by simp [h2])] at hq ⊢
        by_cases h3 : checkPDB env.pdbs p = true
        · rw [if_pos h3] at hq ⊢
          simpa using ih c (by simpa using hq)
        · simp only [Bool.not_eq_true] at h3
          rw [if_neg (by simp [h3])] at hq ⊢
          cases h4 : (env.profiles.lookup (workloadTypeOf p)).isSome with
          | false =>
            simp only [h4] at hq ⊢
            simpa using ih c (by simpa using hq)
          | true =>
            simp only [h4] at hq ⊢
            cases h5 : env.evict p with
            | tooManyRequests =>
              simp only [h5] at hq
              simp only [evictsOf_listPDBs, evictsOf_evict, evictsOf_event, evictsOf_nil] at hq
              rcases List.mem_singleton.mp hq with rfl
              rw [h5] at hs
              exact absurd hs (by simp)
            | otherError =>
              simp only [h5] at hq ⊢
              simp only [evictsOf_listPDBs, evictsOf_evict, evictsOf_event] at hq
              rcases List.mem_cons.mp hq with rfl | hmem
              · rw [h5] at hs; exact absurd hs (by simp)
              · simpa using ih c hmem
            | success =>
              simp only [h5] at hq ⊢
              have hqp : q = p := by
                cases ho2 : env.ownerOf p <;> simp only [ho2] at hq <;>
                  cases hpk : env.patchOk <;> simp [hpk] at hq <;> exact hq
              subst hqp
              rw [ho]
              cases hpk : env.patchOk <;> simp

lemma processPods_all_success (env : Env) (hs : ∀ p, env.evict p = EvictResult.success)
    (l : List Pod) (c : Int) (hc : c < env.maxEvictions) :
    evictsOf (processPods env l c).1 = (l.find? (admittedBy env)).toList ∧
      (processPods env l c).2
        = ((l.find? (admittedBy env)).map fun _ => RResult.requeueAfter (5 * second)) := by
  induction l with
  | nil => simp [processPods]
  | cons p rest ih =>
    rw [processPods, if_neg (not_le.mpr hc)]
    by_cases h2 : cooldownSkip env p = true
    · rw [if_pos h2, List.find?_cons_of_neg _ (by simp [admittedBy, h2])]
      simpa using ih
    · simp only [Bool.not_eq_true] at h2
      rw [if_neg (by simp [h2])]
      by_cases h3 : checkPDB env.pdbs p = true
      · rw [if_pos h3, List.find?_cons_of_neg _ (by simp [admittedBy, h3])]
        simpa using ih
      · simp only [Bool.not_eq_true] at h3
        rw [if_neg (by simp [h3])]
        cases h4 : (env.profiles.lookup (workloadTypeOf p)).isSome with
        | false =>
          rw [List.find?_cons_of_neg _ (by simp [admittedBy, h4])]
          simpa using ih
        | true =>
          rw [List.find?_cons_of_pos _ (by simp [admittedBy, h2, h3, h4])]
          rw [hs p]
          cases ho : env.ownerOf p <;> cases hpk : env.patchOk <;> simp [ho, hpk]

lemma rankedOn_of_empty (env : Env) (nodeName : String)
    (h : (candidatesOn env nodeName).isEmpty = true) : rankedOn env nodeName = [] := by
  rw [rankedOn, List.isEmpty_iff.mp h]
  rfl

lemma processNodes_all_success (env : Env) (hs : ∀ p, env.evict p = EvictResult.success)
    (hmax : 0 < env.maxEvictions) (ns : List Node) :
    evictsOf (processNodes env ns).1 = (firstAdmitted env ns).toList ∧
      (processNodes env ns).2
        = (match firstAdmitted env ns with
           | some _ => RResult.requeueAfter (5 * second)
           | none => RResult.requeueAfter env.recheckInterval) := by
  induction ns with
  | nil => simp [processNodes, firstAdmitted]
  | cons n rest ih =>
    rw [processNodes, firstAdmitted]
    by_cases hemp : (candidatesOn env n.name).isEmpty = true
    · rw [if_pos hemp, rankedOn_of_empty env n.name hemp]
      simpa using ih
    · rw [if_neg (by simp [hemp])]
      rcases processPods_all_success env hs (rankedOn env n.name) 0 hmax with ⟨he, hr⟩
      cases hfind : (rankedOn env n.name).find? (admittedBy env) with
      | some p =>
        rw [hfind] at he hr
        simp only [hr, Option.map_some]
        simp [he, hfind]
      | none =>
        rw [hfind] at he hr
        rcases ih with ⟨ihe, ihr⟩
        simp [hr, hfind, he, ihe, ihr]

lemma processNodes_evict_mem (env : Env) (ns : List Node) (q : Pod)
    (h : q ∈ evictsOf (processNodes env ns).1) :
    cooldownSkip env q = false ∧ checkPDB env.pdbs q = false ∧
      (env.profiles.lookup (workloadTypeOf q)).isSome = true := by
  induction ns with
  | nil => simp [processNodes] at h
  | cons n rest ih =>
    rw [processNodes] at h
    by_cases hemp : (candidatesOn env n.name).isEmpty = true
    · rw [if_pos hemp] at h
      exact ih h
    · rw [if_neg (by simp [hemp])] at h
      cases hr0 : (processPods env (rankedOn env n.name) 0).2 with
      | some res =>
        simp only [hr0] at h
        exact processPods_evict_mem env _ 0 q h
      | none =>
        simp only [hr0] at h
        simp only [evictsOf_append, List.mem_append] at h
        rcases h with hl | hr
        · exact processPods_evict_mem env _ 0 q hl
        · exact ih hr

lemma processNodes_tmr (env : Env) (ns : List Node) (q : Pod)
    (hq : q ∈ evictsOf (processNodes env ns).1)
    (ht : env.evict q = EvictResult.tooManyRequests) :
    (processNodes env ns).2 = RResult.requeueAfter (10 * second) ∧
      ∃ pre, evictsOf (processNodes env ns).1 = pre ++ [q] := by
  induction ns with
  | nil => simp [processNodes] at hq
  | cons n rest ih =>
    rw [processNodes] at hq ⊢
    by_cases hemp : (candidatesOn env n.name).isEmpty = true
    · rw [if_pos hemp] at hq ⊢
      exact ih hq
    · rw [if_neg (by simp [hemp])] at hq ⊢
      cases hr0 : (processPods env (rankedOn env n.name) 0).2 with
      | some res =>
        simp only [hr0] at hq ⊢
        rcases processPods_tmr env _ 0 q hq ht with ⟨hres, pre, hpre⟩
        rw [hr0] at hres
        rcases Option.some_injective _ hres with rfl
        exact ⟨rfl, pre, hpre⟩
      | none =>
        simp only [hr0] at hq ⊢
        simp only [evictsOf_append, List.mem_append] at hq
        rcases hq with hl | hr
        · rcases processPods_tmr env _ 0 q hl ht with ⟨hres, _⟩
          rw [hr0] at hres
          exact absurd hres (by simp)
        · rcases ih hr with ⟨hres, pre, hpre⟩
          refine ⟨hres, evictsOf (processPods env (rankedOn env n.name) 0).1 ++ pre, ?_⟩
          simp [hpre]

lemma processNodes_success_patch (env : Env) (ns : List Node) (q : Pod) (o : Owner)
    (hq : q ∈ evictsOf (processNodes env ns).1)
    (hs : env.evict q = EvictResult.success)
    (ho : env.ownerOf q = OwnerResult.found o) :
    (processNodes env ns).2 = RResult.requeueAfter (5 * second) ∧
      patchesOf (processNodes env ns).1 = [(o.name, newDeadline env)] := by
  induction ns with
  | nil => simp [processNodes] at hq
  | cons n rest ih =>
    rw [processNodes] at hq ⊢
    by_cases hemp : (candidatesOn env n.name).isEmpty = true
    · rw [if_pos hemp] at hq ⊢
      exact ih hq
    · rw [if_neg (by simp [hemp])] at hq ⊢
      cases hr0 : (processPods env (rankedOn env n.name) 0).2 with
      | some res =>
        simp only [hr0] at hq ⊢
        rcases processPods_success_patch env _ 0 q o hq hs ho with ⟨hres, hpat⟩
        rw [hr0] at hres
        rcases Option.some_injective _ hres with rfl
        exact ⟨rfl, hpat⟩
      | none =>
        simp only [hr0] at hq ⊢
        simp only [evictsOf_append, List.mem_append] at hq
        rcases hq with hl | hr
        · rcases processPods_success_patch env _ 0 q o hl hs ho with ⟨hres, _⟩
          rw [hr0] at hres
          exact absurd hres (by simp)
        · rcases ih hr with ⟨hres, hpat⟩
          rcases processPods_none_char env (rankedOn env n.name) 0 hr0 with ⟨hp0, _⟩
          refine ⟨hres, ?_⟩
          simp [hp0, hpat]

lemma firstAdmitted_profiles_empty (env : Env) (hp : env.profiles = []) (ns : List Node) :
    firstAdmitted env ns = none := by
  induction ns with
  | nil => rfl
  | cons n rest ih =>
    rw [firstAdmitted]
    have hfind : (rankedOn env n.name).find? (admittedBy env) = none := by
      apply List.find?_eq_none.mpr
      intro p _
      simp [admittedBy, hp]
    rw [hfind]
    exact ih

lemma reconcile_evict_mem (env : Env) (q : Pod) (h : q ∈ evictsOf (reconcile env).1) :
    cooldownSkip env q = false ∧ checkPDB env.pdbs q = false ∧
      (env.profiles.lookup (workloadTypeOf q)).isSome = true := by
  by_cases h1 : env.profiles.length = 0
  · simp [reconcile, h1] at h
  · by_cases h2 : (env.nodes.filter nodeDegraded).length = 0
    · simp [reconcile, h1, h2] at h
    · simp only [reconcile, h1, h2, if_false, if_neg, evictsOf_listNodes, evictsOf_append,
        evictsOf_degraded_events, evictsOf_listPods, List.nil_append, List.mem_append] at h
      exact processNodes_evict_mem env _ q h

/-- C5: a ranked candidate whose owner resolves and carries a cooldown deadline in
the future at check time is never the target of an eviction request in the
invocation. -/
theorem C5_future_cooldown_never_evicted (env : Env) (p : Pod) (o : Owner) (s : String)
    (t : Int) (ho : env.ownerOf p = OwnerResult.found o)
    (hann : o.annotations.lookup EvictionCooldownAnnotation = some s)
    (hparse : env.parse s = some t) (hfut : env.now < t) :
    p ∉ evictsOf (reconcile env).1 := by
  intro hmem
  have hcs := (reconcile_evict_mem env p hmem).1
  simp only [cooldownSkip, ho, hann, hparse] at hcs
  exact absurd hfut (of_decide_eq_false hcs)

/-- C6: when the eviction subresource answers with a too-many-requests error for a
candidate, that request is the last one of the invocation (no further removal
request for any node) and the invocation requeues after ten seconds. -/
theorem C6_rate_limited_backoff (env : Env) (q : Pod)
    (hmem : q ∈ evictsOf (reconcile env).1)
    (ht : env.evict q = EvictResult.tooManyRequests) :
    (reconcile env).2 = RResult.requeueAfter (10 * second) ∧
      ∃ pre, evictsOf (reconcile env).1 = pre ++ [q] := by
  by_cases h1 : env.profiles.length = 0
  · simp [reconcile, h1] at hmem
  · by_cases h2 : (env.nodes.filter nodeDegraded).length = 0
    · simp [reconcile, h1, h2] at hmem
    · have hmem2 : q ∈ evictsOf (processNodes env (env.nodes.filter nodeDegraded)).1 := by
        simp [reconcile, h1, h2] at hmem
        exact hmem
      rcases processNodes_tmr env _ q hmem2 ht with ⟨hres, pre, hpre⟩
      constructor
      · simp [reconcile, h1, h2, hres]
      · refine ⟨pre, ?_⟩
        simp [reconcile, h1, h2, hpre]

/-- C4: a successful eviction of a pod whose owner resolved performs exactly one
cooldown-deadline patch, on that owner, with deadline now plus twice the recheck
interval; the invocation requeues after five seconds regardless of whether the
patch persists (the conclusion does not depend on Env.patchOk); and when the owner
already carried a parsable deadline, the new deadline is strictly later, provided
the recheck interval is positive. -/
theorem C4_single_cooldown_update (env : Env) (p : Pod) (o : Owner)
    (hmem : p ∈ evictsOf (reconcile env).1)
    (hs : env.evict p = EvictResult.success)
    (ho : env.ownerOf p = OwnerResult.found o) :
    patchesOf (reconcile env).1 = [(o.name, newDeadline env)] ∧
      (reconcile env).2 = RResult.requeueAfter (5 * second) ∧
      (∀ s d, o.annotations.lookup EvictionCooldownAnnotation = some s →
        env.parse s = some d → 0 < env.recheckInterval → d < newDeadline env) := by
  have hlater : ∀ s d, o.annotations.lookup EvictionCooldownAnnotation = some s →
      env.parse s = some d → 0 < env.recheckInterval → d < newDeadline env := by
    intro s d hann hparse hint
    have hcs := (reconcile_evict_mem env p hmem).1
    simp only [cooldownSkip, ho, hann, hparse] at hcs
    have hnf : ¬ (env.now < d) := of_decide_eq_false hcs
    rw [newDeadline]
    omega
  by_cases h1 : env.profiles.length = 0
  · simp [reconcile, h1] at hmem
  · by_cases h2 : (env.nodes.filter nodeDegraded).length = 0
    · simp [reconcile, h1, h2] at hmem
    · have hmem2 : p ∈ evictsOf (processNodes env (env.nodes.filter nodeDegraded)).1 := by
        simp [reconcile, h1, h2] at hmem
        exact hmem
      rcases processNodes_success_patch env _ p o hmem2 hs ho with ⟨hres, hpat⟩
      refine ⟨?_, ?_, hlater⟩
      · simp [reconcile, h1, h2, hpat]
      · simp [reconcile, h1, h2, hres]

/-- C1 (amended): with a positive per-node eviction cap and a removal primitive
that succeeds, one invocation issues exactly the eviction requests named by
firstAdmitted: the first candidate, in ranked order, that passes the cooldown
check, the disruption-budget check and the profile-existence check, on the first
degraded node (in processing order) that has such a candidate - one request when
such a candidate exists, none otherwise - and after that eviction the invocation
ends (requeue after five seconds), attempting no further node. -/
theorem C1_first_admitted_eviction (env : Env)
    (hs : ∀ p, env.evict p = EvictResult.success) (hmax : 0 < env.maxEvictions) :
    evictsOf (reconcile env).1 = (firstAdmitted env (env.nodes.filter nodeDegraded)).toList ∧
      (∀ p, firstAdmitted env (env.nodes.filter nodeDegraded) = some p →
        (reconcile env).2 = RResult.requeueAfter (5 * second)) := by
  by_cases h1 : env.profiles.length = 0
  · have hp : env.profiles = [] := List.length_eq_zero.mp h1
    rw [firstAdmitted_profiles_empty env hp]
    simp [reconcile, h1]
  · by_cases h2 : (env.nodes.filter nodeDegraded).length = 0
    · have hd : env.nodes.filter nodeDegraded = [] := List.length_eq_zero.mp h2
      rw [hd]
      simp [reconcile, h1, h2, firstAdmitted]
    · rcases processNodes_all_success env hs hmax (env.nodes.filter nodeDegraded) with ⟨he, hr⟩
      constructor
      · simp [reconcile, h1, h2, he]
      · intro p hp
        rw [hp] at hr
        simp [reconcile, h1, h2, hr]

/-- C8: with an empty profile snapshot or no degraded node, the invocation lists no
pods and no disruption budgets, issues no eviction, patches nothing and emits no
event (its whole trace is empty, or the node list call alone), and requeues after
the configured recheck interval. -/
theorem C8_no_degraded_no_action (env : Env)
    (h : env.profiles = [] ∨ env.nodes.filter nodeDegraded = []) :
    ((reconcile env).1 = [] ∨ (reconcile env).1 = [Action.listNodes]) ∧
      (reconcile env).2 = RResult.requeueAfter env.recheckInterval := by
  rcases h with h | h
  · have h1 : env.profiles.length = 0 := by rw [h]; rfl
    exact ⟨Or.inl (by simp [reconcile, h1]), by simp [reconcile, h1]⟩
  · by_cases h1 : env.profiles.length = 0
    · exact ⟨Or.inl (by simp [reconcile, h1]), by simp [reconcile, h1]⟩
    · have h2 : (env.nodes.filter nodeDegraded).length = 0 := by rw [h]; rfl
      constructor
      · right
        simp [reconcile, h1, h2, h]
      · simp [reconcile, h1, h2]

/-- C10: an owner cooldown annotation that does not parse as RFC 3339 fails open:
the candidate is not rejected by the cooldown check, and its processing proceeds to
the disruption-budget check (the next action of the candidate loop is the budget
listing in the candidate namespace). -/
theorem C10_malformed_cooldown_fails_open (env : Env) (p : Pod) (o : Owner) (s : String)
    (rest : List Pod) (c : Int)
    (ho : env.ownerOf p = OwnerResult.found o)
    (hann : o.annotations.lookup EvictionCooldownAnnotation = some s)
    (hparse : env.parse s = none) (hc : c < env.maxEvictions) :
    cooldownSkip env p = false ∧
      ∃ tr, (processPods env (p :: rest) c).1 = Action.listPDBs p.ns :: tr := by
  have hcs : cooldownSkip env p = false := by
    simp [cooldownSkip, ho, hann, hparse]
  refine ⟨hcs, ?_⟩
  rw [processPods, if_neg (not_le.mpr hc), if_neg (by simp [hcs])]
  by_cases h3 : checkPDB env.pdbs p = true
  · rw [if_pos h3]
    exact ⟨_, rfl⟩
  · rw [if_neg (by simp [h3])]
    cases h4 : (env.profiles.lookup (workloadTypeOf p)).isSome with
    | false =>
      simp only [h4]
      exact ⟨_, rfl⟩
    | true =>
      simp only [h4]
      cases h5 : env.evict p with
      | tooManyRequests => simp only [h5]; exact ⟨_, rfl⟩
      | otherError => simp only [h5]; exact ⟨_, rfl⟩
      | success => simp only [h5]; exact ⟨_, rfl⟩

/-! Concrete environments for the closed statements. -/

/-- A node carrying the degraded annotation. -/
def nodeDeg : Node := { name := "n1", annotations := [( NodeDegradedAnnotation, "true")] }

/-- A running BestEffort pod on n1 whose workload type has no profile in psNoisy. -/
def podOrphan : Pod :=
  { name := "orphan", ns := "default", nodeName := "n1", phase := PodPhase.running,
    labels := [(WorkloadTypeLabel, "db")],
    containers := some [{ requests := none, limits := none }] }

/-- Environment of the C1 counterexample: a nonempty profile snapshot, one degraded
node, and one candidate that passes both admission checks but has no profile. -/
def envC1c : Env :=
  { profiles := psNoisy, nodes := [nodeDeg], pods := [podOrphan], pdbs := [],
    ownerOf := fun _ => OwnerResult.noOwner, parse := fun _ => none, now := 0,
    evict := fun _ => EvictResult.success, patchOk := true,
    recheckInterval := 120 * second, maxEvictions := 1 }

/-- C1 counterexample: a ranked candidate on a degraded node passes the cooldown
check and the disruption-budget check, yet the invocation issues no removal
request, because a third condition (a matching workload profile must exist)
excludes it - against the claim that no condition other than the two admission
checks excludes a ranked candidate. -/
theorem C1_counterexample :
    cooldownSkip envC1c podOrphan = false ∧
    checkPDB envC1c.pdbs podOrphan = false ∧
    podOrphan ∈ rankedOn envC1c "n1" ∧
    nodeDegraded nodeDeg = true ∧
    evictsOf (reconcile envC1c).1 = [] := by
  refine ⟨rfl, rfl, ?_, rfl, ?_⟩
  · decide
  · decide

/-- Environment of the C1 witness: an unprofiled pod ranked first and a profiled
pod ranked second, everything admitted, successful evictor. -/
def envC1w : Env :=
  { profiles := psNoisy, nodes := [nodeDeg], pods := [podProfiled, podUnprofiled],
    pdbs := [], ownerOf := fun _ => OwnerResult.noOwner, parse := fun _ => none,
    now := 0, evict := fun _ => EvictResult.success, patchOk := true,
    recheckInterval := 120 * second, maxEvictions := 1 }

/-- C1 witness: on a concrete environment the invocation issues exactly the one
request firstAdmitted names (the profiled pod, after walking past the tied
unprofiled pod that fails the profile condition) and requeues after five seconds. -/
theorem C1_witness :
    (∀ q, envC1w.evict q = EvictResult.success) ∧ 0 < envC1w.maxEvictions ∧
    firstAdmitted envC1w (envC1w.nodes.filter nodeDegraded) = some podProfiled ∧
    evictsOf (reconcile envC1w).1
      = (firstAdmitted envC1w (envC1w.nodes.filter nodeDegraded)).toList ∧
    (reconcile envC1w).2 = RResult.requeueAfter (5 * second) := by
  have hfa : firstAdmitted envC1w (envC1w.nodes.filter nodeDegraded) = some podProfiled := by
    decide
  have h := C1_first_admitted_eviction envC1w (fun q => rfl) (by decide)
  exact ⟨fun q => rfl, by decide, hfa, h.1, h.2 podProfiled hfa⟩

/-- Owner whose recorded cooldown deadline (timestamp 50) already passed at the
invocation instant 100. -/
def ownerPast : Owner :=
  { name := "own1", ns := "default",
    annotations := [( EvictionCooldownAnnotation, "2025-01-01T00:00:00Z")] }

/-- Environment of the C4 witness: the candidate owner carries a parsable, expired
deadline; the cooldown patch fails (patchOk false). -/
def envC4w : Env :=
  { profiles := psNoisy, nodes := [nodeDeg], pods := [podProfiled], pdbs := [],
    ownerOf := fun _ => OwnerResult.found ownerPast,
    parse := fun s => if s == "2025-01-01T00:00:00Z" then some 50 else none,
    now := 100, evict := fun _ => EvictResult.success, patchOk := false,
    recheckInterval := 120 * second, maxEvictions := 1 }

/-- C4 witness: the successful eviction performs exactly one cooldown patch, with a
deadline strictly later than the expired one, and still requeues after five seconds
although the patch itself fails. -/
theorem C4_witness :
    podProfiled ∈ evictsOf (reconcile envC4w).1 ∧
    envC4w.evict podProfiled = EvictResult.success ∧
    envC4w.ownerOf podProfiled = OwnerResult.found ownerPast ∧
    envC4w.patchOk = false ∧
    patchesOf (reconcile envC4w).1 = [(ownerPast.name, newDeadline envC4w)] ∧
    (reconcile envC4w).2 = RResult.requeueAfter (5 * second) ∧
    (50 : Int) < newDeadline envC4w := by
  have hmem : podProfiled ∈ evictsOf (reconcile envC4w).1 := by decide
  have h := C4_single_cooldown_update envC4w podProfiled ownerPast hmem rfl rfl
  exact ⟨hmem, rfl, rfl, rfl, h.1, h.2.1,
    h.2.2 "2025-01-01T00:00:00Z" 50 rfl rfl (by decide)⟩

/-- Owner whose cooldown deadline (timestamp 999) is still in the future at the
invocation instant 100. -/
def ownerFuture : Owner :=
  { name := "own2", ns := "default",
    annotations := [( EvictionCooldownAnnotation, "2027-01-01T00:00:00Z")] }

/-- Environment of the C5 witness: the only candidate is under an active cooldown. -/
def envC5w : Env :=
  { profiles := psNoisy, nodes := [nodeDeg], pods := [podProfiled], pdbs := [],
    ownerOf := fun _ => OwnerResult.found ownerFuture,
    parse := fun s => if s == "2027-01-01T00:00:00Z" then some 999 else none,
    now := 100, evict := fun _ => EvictResult.success, patchOk := true,
    recheckInterval := 120 * second, maxEvictions := 1 }

/-- C5 witness: the candidate under an active cooldown is never evicted. -/
theorem C5_witness :
    envC5w.ownerOf podProfiled = OwnerResult.found ownerFuture ∧
    ownerFuture.annotations.lookup EvictionCooldownAnnotation
      = some "2027-01-01T00:00:00Z" ∧
    envC5w.parse "2027-01-01T00:00:00Z" = some 999 ∧
    envC5w.now < 999 ∧
    podProfiled ∉ evictsOf (reconcile envC5w).1 :=
  ⟨rfl, rfl, rfl, by decide,
    C5_future_cooldown_never_evicted envC5w podProfiled ownerFuture
      "2027-01-01T00:00:00Z" 999 rfl rfl rfl (by decide)⟩

/-- Environment of the C6 witness: the eviction subresource rate-limits. -/
def envC6w : Env :=
  { profiles := psNoisy, nodes := [nodeDeg], pods := [podProfiled], pdbs := [],
    ownerOf := fun _ => OwnerResult.noOwner, parse := fun _ => none, now := 0,
    evict := fun _ => EvictResult.tooManyRequests, patchOk := true,
    recheckInterval := 120 * second, maxEvictions := 1 }

/-- C6 witness: a rate-limited eviction request ends the invocation with the
ten-second backoff and is the last request of its trace. -/
theorem C6_witness :
    podProfiled ∈ evictsOf (reconcile envC6w).1 ∧
    envC6w.evict podProfiled = EvictResult.tooManyRequests ∧
    (reconcile envC6w).2 = RResult.requeueAfter (10 * second) ∧
    (∃ pre, evictsOf (reconcile envC6w).1 = pre ++ [podProfiled]) := by
  have hmem : podProfiled ∈ evictsOf (reconcile envC6w).1 := by decide
  have h := C6_rate_limited_backoff envC6w podProfiled hmem rfl
  exact ⟨hmem, rfl, h.1, h.2⟩

/-- Environment of the C8 witness: a profile snapshot is present but no node
carries the degraded annotation. -/
def envC8w : Env :=
  { profiles := psNoisy, nodes := [{ name := "n1", annotations := [] }],
    pods := [podProfiled], pdbs := [],
    ownerOf := fun _ => OwnerResult.noOwner, parse := fun _ => none, now := 0,
    evict := fun _ => EvictResult.success, patchOk := true,
    recheckInterval := 120 * second, maxEvictions := 1 }

/-- C8 witness: with no degraded node the invocation only lists nodes and requeues
after the configured recheck interval. -/
theorem C8_witness :
    envC8w.nodes.filter nodeDegraded = [] ∧
    ((reconcile envC8w).1 = [] ∨ (reconcile envC8w).1 = [Action.listNodes]) ∧
    (reconcile envC8w).2 = RResult.requeueAfter envC8w.recheckInterval :=
  ⟨rfl, (C8_no_degraded_no_action envC8w (Or.inr rfl)).1,
    (C8_no_degraded_no_action envC8w (Or.inr rfl)).2⟩

/-- Owner carrying a cooldown annotation that does not parse as RFC 3339. -/
def ownerBad : Owner :=
  { name := "own3", ns := "default",
    annotations := [( EvictionCooldownAnnotation, "not-a-timestamp")] }

/-- Environment of the C10 witness: the candidate owner has a malformed deadline. -/
def envC10w : Env :=
  { profiles := psNoisy, nodes := [nodeDeg], pods := [podProfiled], pdbs := [],
    ownerOf := fun _ => OwnerResult.found ownerBad, parse := fun _ => none, now := 0,
    evict := fun _ => EvictResult.success, patchOk := true,
    recheckInterval := 120 * second, maxEvictions := 1 }

/-- C10 witness: a malformed deadline does not reject the candidate, whose
processing reaches the disruption-budget listing. -/
theorem C10_witness :
    envC10w.ownerOf podProfiled = OwnerResult.found ownerBad ∧
    ownerBad.annotations.lookup EvictionCooldownAnnotation = some "not-a-timestamp" ∧
    envC10w.parse "not-a-timestamp" = none ∧
    (0 : Int) < envC10w.maxEvictions ∧
    (cooldownSkip envC10w podProfiled = false ∧
      ∃ tr, (processPods envC10w (podProfiled :: []) 0).1
        = Action.listPDBs podProfiled.ns :: tr) :=
  ⟨rfl, rfl, rfl, by decide,
    C10_malformed_cooldown_fails_open envC10w podProfiled ownerBad "not-a-timestamp"
      [] 0 rfl rfl rfl (by decide)⟩

end KubeBalance
